import Mathlib

/- Verification of the kafkajs consumer Runner (src/consumer/runner.js).
   Each method of the Runner is modelled as a pure function from explicit
   state and an environment (the outcomes that the external ConsumerGroup
   collaborator and the user handlers produce) to a trace of collaborator
   calls together with a result. Offsets, flags and error values are the
   ones the source inspects. -/

namespace Runner

/-- A JavaScript error value as the runner inspects it: its `type` tag, its
`name`, and whether it is an `instanceof KafkaJSError` (runner.js:13). -/
structure JsError where
  type : String
  name : String
  isKafkaJS : Bool
deriving DecidableEq, Repr

/-- A Kafka message; only the offset is relevant to the runner. -/
structure Message where
  offset : Nat
deriving DecidableEq, Repr

/-- A fetched batch (collaborator data): topic, partition, ordered messages. -/
structure Batch where
  topic : String
  partition : Nat
  messages : List Message
deriving DecidableEq, Repr

/-- Modelled from the spec: `batch.lastOffset()` is provided by the batch
collaborator (its module is not under src/); per the spec's data model it is
the derived offset of the batch's last message. -/
def Batch.lastOffset (b : Batch) : Nat :=
  (b.messages.map Message.offset).getLastD 0

/-- Modelled from the spec: `batch.isEmpty()` is the derived emptiness
predicate of the batch's message sequence. -/
def Batch.isEmpty (b : Batch) : Bool :=
  b.messages.isEmpty

/-- One observable call the Runner makes on its collaborators: the
ConsumerGroup, the user handlers, the instrumentation emitter, timers. -/
inductive GroupCall where
  | callEachMessage (topic : String) (partition offset : Nat)
  | callEachBatch (topic : String) (partition : Nat)
  | logError
  | resolveOffset (topic : String) (partition offset : Nat)
  | heartbeat (interval : Nat)
  | commitOffsets
  | commitOffsetsProvided (offset : Nat)
  | commitOffsetsIfNecessary
  | uncommittedOffsets
  | emitStartBatch
  | emitEndBatch
  | emitFetch
  | leave
  | waitPoll (ms : Nat)
deriving DecidableEq, Repr

/-- Runner construction options (runner.js:16-43). The two `has*` fields
record which user handlers were supplied. -/
structure RunnerConfig where
  eachBatchAutoResolve : Bool := true
  autoCommit : Bool := true
  heartbeatInterval : Nat
  partitionsConsumedConcurrently : Nat
  hasEachMessage : Bool
  hasEachBatch : Bool
deriving DecidableEq, Repr

/-- `autoCommitOffsets` (runner.js:350-354): a commit only when `autoCommit`. -/
def autoCommitOffsetsCalls (cfg : RunnerConfig) : List GroupCall :=
  if cfg.autoCommit then [GroupCall.commitOffsets] else []

/-- `autoCommitOffsetsIfNecessary` (runner.js:356-360). -/
def autoCommitOffsetsIfNecessaryCalls (cfg : RunnerConfig) : List GroupCall :=
  if cfg.autoCommit then [GroupCall.commitOffsetsIfNecessary] else []

/-- Environment for `processEachMessage`: the values of `this.running` and of
`consumerGroup.hasSeekOffset` as observed at loop iteration `i`, and the
outcome of the user `eachMessage` handler on each message. -/
structure MessageEnv where
  running : Nat → Bool
  hasSeek : Nat → Bool
  handlerResult : String → Nat → Message → Except JsError Unit

/-- Collaborator calls issued for one successfully handled message
(runner.js:143, 159-161): handler call, resolve, heartbeat, commit-if-necessary. -/
def messageSuccessCalls (cfg : RunnerConfig) (topic : String) (partition : Nat)
    (m : Message) : List GroupCall :=
  [GroupCall.callEachMessage topic partition m.offset,
   GroupCall.resolveOffset topic partition m.offset,
   GroupCall.heartbeat cfg.heartbeatInterval,
   GroupCall.commitOffsetsIfNecessary]

/-- Collaborator calls issued when the handler throws `e` (runner.js:144-156):
a log of non-Kafka errors, then an unconditional `commitOffsets`. -/
def messageErrorCalls (topic : String) (partition : Nat) (m : Message)
    (e : JsError) : List GroupCall :=
  GroupCall.callEachMessage topic partition m.offset ::
    (if e.isKafkaJS then [] else [GroupCall.logError]) ++ [GroupCall.commitOffsets]

/-- The message loop of `processEachMessage` (runner.js:137-162) at loop index
`i`: break when not running or when a seek is pending; otherwise run the
handler; on error log (non-Kafka errors only), commit, and rethrow; on
success resolve the offset, heartbeat, and commit-if-necessary. -/
def processEachMessageGo (cfg : RunnerConfig) (env : MessageEnv) (topic : String)
    (partition : Nat) : Nat → List Message → List GroupCall × Option JsError
  | _, [] => ([], none)
  | i, m :: rest =>
    if !env.running i || env.hasSeek i then ([], none)
    else
      match env.handlerResult topic partition m with
      | Except.error e => (messageErrorCalls topic partition m e, some e)
      | Except.ok _ =>
        let r := processEachMessageGo cfg env topic partition (i + 1) rest
        (messageSuccessCalls cfg topic partition m ++ r.1, r.2)

/-- `processEachMessage` (runner.js:134-163). -/
def processEachMessage (cfg : RunnerConfig) (env : MessageEnv) (b : Batch) :
    List GroupCall × Option JsError :=
  processEachMessageGo cfg env b.topic b.partition 0 b.messages

/-- A call the user `eachBatch` handler makes on its control surface
(runner.js:169-191). -/
inductive SurfaceCall where
  | resolveOffset (offset : Nat)
  | heartbeat
  | commitProvided (offset : Nat)
  | commitIfNecessary
  | uncommittedOffsets
  | isRunning
  | isStale
deriving DecidableEq, Repr

/-- Translation of one surface call into collaborator calls (runner.js:171-190):
`commitOffsetsIfNecessary` with explicit offsets forwards to
`consumerGroup.commitOffsets(offsets)`, without offsets to
`consumerGroup.commitOffsetsIfNecessary()`; `isRunning` and `isStale` only
read flags and touch no collaborator. -/
def surfaceToGroup (cfg : RunnerConfig) (topic : String) (partition : Nat) :
    SurfaceCall → List GroupCall
  | SurfaceCall.resolveOffset o => [GroupCall.resolveOffset topic partition o]
  | SurfaceCall.heartbeat => [GroupCall.heartbeat cfg.heartbeatInterval]
  | SurfaceCall.commitProvided o => [GroupCall.commitOffsetsProvided o]
  | SurfaceCall.commitIfNecessary => [GroupCall.commitOffsetsIfNecessary]
  | SurfaceCall.uncommittedOffsets => [GroupCall.uncommittedOffsets]
  | SurfaceCall.isRunning => []
  | SurfaceCall.isStale => []

def surfaceCallsToGroup (cfg : RunnerConfig) (topic : String) (partition : Nat) :
    List SurfaceCall → List GroupCall
  | [] => []
  | c :: cs => surfaceToGroup cfg topic partition c ++
      surfaceCallsToGroup cfg topic partition cs

/-- Environment for `processEachBatch`: whether the partition has a pending
seek (what the `isStale` surface reports), the surface calls the user handler
makes, and the handler's outcome. -/
structure BatchEnv where
  hasSeek : Bool
  handlerCalls : List SurfaceCall
  handlerResult : Except JsError Unit

/-- `processEachBatch` (runner.js:165-213): the batch handler is invoked
unconditionally (a pending seek is only exposed to it through `isStale`); on
handler error log (non-Kafka errors), `autoCommitOffsets`, rethrow; on
success auto-resolve the batch's last offset when `eachBatchAutoResolve`. -/
def processEachBatch (cfg : RunnerConfig) (env : BatchEnv) (b : Batch) :
    List GroupCall × Option JsError :=
  let handlerTrace :=
    GroupCall.callEachBatch b.topic b.partition ::
      surfaceCallsToGroup cfg b.topic b.partition env.handlerCalls
  match env.handlerResult with
  | Except.error e =>
      (handlerTrace ++ (if e.isKafkaJS then [] else [GroupCall.logError]) ++
        autoCommitOffsetsCalls cfg, some e)
  | Except.ok _ =>
      (handlerTrace ++
        (if cfg.eachBatchAutoResolve then
          [GroupCall.resolveOffset b.topic b.partition b.lastOffset]
        else []), none)

/-- The offset cursor of one (topic, partition) as owned by the
ConsumerGroup collaborator: last resolved and last committed offset, plus a
count of `commitOffsetsIfNecessary` calls used to consult the necessity
oracle. -/
structure OffsetState where
  resolved : Nat
  committed : Nat
  necCount : Nat
deriving DecidableEq, Repr

/-- Effect of one collaborator call on the offset cursor. `nec i` says
whether the i-th `commitOffsetsIfNecessary` call finds the auto-commit
thresholds met. -/
def applyCall (nec : Nat → Bool) (s : OffsetState) : GroupCall → OffsetState
  | GroupCall.resolveOffset _ _ o => { s with resolved := o }
  | GroupCall.commitOffsets => { s with committed := s.resolved }
  | GroupCall.commitOffsetsProvided o => { s with committed := o }
  | GroupCall.commitOffsetsIfNecessary =>
      { s with committed := if nec s.necCount then s.resolved else s.committed,
               necCount := s.necCount + 1 }
  | _ => s

def runCalls (nec : Nat → Bool) (s : OffsetState) (l : List GroupCall) : OffsetState :=
  l.foldl (applyCall nec) s

/-- `isRebalancing` (runner.js:10-11). -/
def isRebalancing (e : JsError) : Bool :=
  e.type == "REBALANCE_IN_PROGRESS" || e.type == "NOT_COORDINATOR_FOR_GROUP"

/-- The action the catch block of `scheduleFetch` takes (runner.js:286-343),
one constructor per branch in source order. -/
inductive FetchErrAction where
  | cleanExit
  | rejoinRefetch
  | clearMemberRejoinRefetch
  | refetchOnly
  | bailFatal
  | rethrowErr
deriving DecidableEq, Repr

/-- The branch selection of the catch block of `scheduleFetch`
(runner.js:286-343), in source order. -/
def classifyFetchErr (running : Bool) (e : JsError) : FetchErrAction :=
  if !running then FetchErrAction.cleanExit
  else if isRebalancing e then FetchErrAction.rejoinRefetch
  else if e.type == "UNKNOWN_MEMBER_ID" then FetchErrAction.clearMemberRejoinRefetch
  else if e.name == "KafkaJSOffsetOutOfRange" then FetchErrAction.refetchOnly
  else if e.name == "KafkaJSNotImplemented" then FetchErrAction.bailFatal
  else FetchErrAction.rethrowErr

/-- Runner state observed by the fetch scheduler: the `running` and
`consuming` flags and the group member id. -/
structure SFState where
  running : Bool
  consuming : Bool
  memberId : Option String
deriving DecidableEq, Repr

/-- How one `scheduleFetch` invocation ends: clean exit, re-entered (success
or local recovery), or the retrier rejected and `onCrash` fired. -/
inductive SFResult where
  | exited
  | reentered
  | crashed (e : JsError)
deriving DecidableEq, Repr

/-- One retrier run of the `scheduleFetch` body (runner.js:280-347), with
`fuel` remaining retries and `fetchResults n` the outcome of the fetch of
attempt `n`. `consuming` is true only transiently inside an attempt and is
cleared by the `finally` on every exit, so every returned state carries
`consuming := false`. Recovery joins are modelled as succeeding; a
successful join sets `running := true` (runner.js:52). `.crashed e` is the
retrier rejecting — a bail on `KafkaJSNotImplemented` or retry exhaustion —
after which `.catch(this.onCrash)` fires the crash handler without touching
any flag (runner.js:347). -/
def scheduleFetchGo (fetchResults : Nat → Except JsError Unit) :
    Nat → Nat → SFState → SFState × SFResult
  | fuel, attempt, st =>
    match fetchResults attempt with
    | Except.ok _ => ({ st with consuming := false }, SFResult.reentered)
    | Except.error e =>
      match classifyFetchErr st.running e with
      | FetchErrAction.cleanExit =>
          ({ st with consuming := false }, SFResult.exited)
      | FetchErrAction.rejoinRefetch =>
          ({ st with consuming := false, running := true }, SFResult.reentered)
      | FetchErrAction.clearMemberRejoinRefetch =>
          ({ st with consuming := false, memberId := none, running := true },
           SFResult.reentered)
      | FetchErrAction.refetchOnly =>
          ({ st with consuming := false }, SFResult.reentered)
      | FetchErrAction.bailFatal =>
          ({ st with consuming := false }, SFResult.crashed e)
      | FetchErrAction.rethrowErr =>
        match fuel with
        | 0 => ({ st with consuming := false }, SFResult.crashed e)
        | fuel' + 1 =>
            scheduleFetchGo fetchResults fuel' (attempt + 1)
              { st with consuming := false }

/-- `scheduleFetch` (runner.js:271-348), one retrier run: exit immediately
when not running (runner.js:272-278), otherwise run the retried attempts. -/
def scheduleFetchOnce (fetchResults : Nat → Except JsError Unit) (retries : Nat)
    (st : SFState) : SFState × SFResult :=
  if st.running then scheduleFetchGo fetchResults retries 0 { st with consuming := true }
  else (st, SFResult.exited)

/-- `start` (runner.js:80-93): return when already running; otherwise join
(outcome given), then set `running := true` and launch the scheduler; a join
error is routed to `onCrash` (returned as `some e`) and leaves the flag
untouched. -/
def start (running : Bool) (joinResult : Except JsError Unit) :
    Bool × Option JsError :=
  if running then (running, none)
  else
    match joinResult with
    | Except.ok _ => (true, none)
    | Except.error e => (running, some e)

/-- Environment for `stop`: the `consuming` flag as observed by the n-th
check of `waitForConsumer`, whether the process runs in test mode
(runner.js:8), and the outcome of `consumerGroup.leave()` (swallowed). -/
structure StopEnv where
  consumingAt : Nat → Bool
  testMode : Bool
  leaveResult : Except JsError Unit

/-- `waitForConsumer` (runner.js:115-132): the number of 1-second waits
performed until `consuming` is observed false; check 0 is the immediate one. -/
def waitForConsumer (c : Nat → Bool) (h : ∃ n, c n = false) : Nat :=
  Nat.find h

/-- `stop` (runner.js:95-113): no-op when not running; otherwise clear
`running`, wait for the consumer (skipped in test mode) polling at 1-second
intervals, then leave the group. The try/catch swallows every error of the
wait and of the leave, so the function is total and its output does not
consult `leaveResult`. -/
def stop (env : StopEnv) (h : ∃ n, env.consumingAt n = false) (running : Bool) :
    Bool × List GroupCall :=
  if running then
    (false,
      (if env.testMode then []
       else List.replicate (waitForConsumer env.consumingAt h) (GroupCall.waitPoll 1000)) ++
        [GroupCall.leave])
  else (running, [])

/-- Handler dispatch of the per-batch task (runner.js:238-242): `eachMessage`
wins when configured, otherwise `eachBatch` when configured, otherwise
nothing runs. -/
def dispatchHandler (cfg : RunnerConfig) (mEnv : MessageEnv) (bEnv : BatchEnv)
    (b : Batch) : List GroupCall × Option JsError :=
  if cfg.hasEachMessage then processEachMessage cfg mEnv b
  else if cfg.hasEachBatch then processEachBatch cfg bEnv b
  else ([], none)

/-- `onBatch` (runner.js:224-248): emit START_BATCH_PROCESS, dispatch, and
emit END_BATCH_PROCESS only when the dispatch returned without error. -/
def onBatch (cfg : RunnerConfig) (mEnv : MessageEnv) (bEnv : BatchEnv)
    (b : Batch) : List GroupCall × Option JsError :=
  let r := dispatchHandler cfg mEnv bEnv b
  (GroupCall.emitStartBatch ::
     r.1 ++ (match r.2 with | none => [GroupCall.emitEndBatch] | some _ => []),
   r.2)

/-- The per-batch task submitted to the concurrency limiter
(runner.js:252-263): skip when not running or when the batch is empty. -/
def fetchBatchTask (cfg : RunnerConfig) (running : Bool) (mEnv : MessageEnv)
    (bEnv : BatchEnv) (b : Batch) : List GroupCall × Option JsError :=
  if !running then ([], none)
  else if b.isEmpty then ([], none)
  else onBatch cfg mEnv bEnv b

/-- The shape of one fetch cycle (runner.js:215-269): emit FETCH, process the
batches (`processing` stands for the interleaved trace of the limited batch
tasks), then `autoCommitOffsets()` and a trailing heartbeat. -/
def fetchCycleTrace (cfg : RunnerConfig) (processing : List GroupCall) :
    List GroupCall :=
  GroupCall.emitFetch :: processing ++ autoCommitOffsetsCalls cfg ++
    [GroupCall.heartbeat cfg.heartbeatInterval]

/-- Every `resolveOffset` in the trace is immediately followed by a heartbeat
with interval `hb`. -/
def heartbeatFollowsResolve (hb : Nat) : List GroupCall → Bool
  | [] => true
  | GroupCall.resolveOffset _ _ _ :: rest =>
      (match rest.head? with
       | some (GroupCall.heartbeat j) => j == hb
       | _ => false) && heartbeatFollowsResolve hb rest
  | _ :: rest => heartbeatFollowsResolve hb rest

/-- Every heartbeat in the trace carries interval `hb`. -/
def heartbeatsAllAt (hb : Nat) (l : List GroupCall) : Bool :=
  l.all (fun c => match c with
    | GroupCall.heartbeat j => j == hb
    | _ => true)

/-- Source locations at which `this.running` is assigned. -/
inductive RunnerSite where
  | inJoin
  | inStart
  | inStop
deriving DecidableEq, Repr

/-- One assignment to `this.running`, with the site performing it. -/
structure RunningWrite where
  site : RunnerSite
  value : Bool
deriving DecidableEq, Repr

/-- Writes to `running` performed by a successful `start`: the awaited join
writes true (runner.js:52), then start itself writes true (runner.js:88). -/
def startRunningWrites : List RunningWrite :=
  [⟨RunnerSite.inJoin, true⟩, ⟨RunnerSite.inStart, true⟩]

/-- The write performed by `stop` when entered running (runner.js:105). -/
def stopRunningWrites : List RunningWrite :=
  [⟨RunnerSite.inStop, false⟩]

/-- Writes performed by the rebalance/unknown-member recovery of
`scheduleFetch`, which re-joins: the awaited join writes true
(runner.js:305, runner.js:320 via runner.js:52). -/
def recoveryRunningWrites : List RunningWrite :=
  [⟨RunnerSite.inJoin, true⟩]

/-- Interleaving of the write sequences of two operations: each operation is
suspended at its await points (network RPCs), where the other may run. -/
inductive Interleave :
    List RunningWrite → List RunningWrite → List RunningWrite → Prop where
  | nil : Interleave [] [] []
  | consLeft (a : RunningWrite) {l r t : List RunningWrite} :
      Interleave l r t → Interleave (a :: l) r (a :: t)
  | consRight (a : RunningWrite) {l r t : List RunningWrite} :
      Interleave l r t → Interleave l (a :: r) (a :: t)

/-- The successive assignments of `running` along a write trace, recorded as
(site, old value, new value). -/
def runningTransitions : Bool → List RunningWrite → List (RunnerSite × Bool × Bool)
  | _, [] => []
  | cur, w :: ws => (w.site, cur, w.value) :: runningTransitions w.value ws

instance {α β : Type} [DecidableEq α] [DecidableEq β] :
    DecidableEq (Except α β) := fun a b =>
  match a, b with
  | Except.ok x, Except.ok y =>
    match decEq x y with
    | isTrue h => isTrue (h ▸ rfl)
    | isFalse h => isFalse (fun hh => h (Except.ok.inj hh))
  | Except.error x, Except.error y =>
    match decEq x y with
    | isTrue h => isTrue (h ▸ rfl)
    | isFalse h => isFalse (fun hh => h (Except.error.inj hh))
  | Except.ok _, Except.error _ => isFalse (fun hh => Except.noConfusion hh)
  | Except.error _, Except.ok _ => isFalse (fun hh => Except.noConfusion hh)

/-- Modelled from the spec: the concurrency limiter `limitConcurrency`
(required from src/utils/concurrency, a module not under src/). Per the spec
it admits at most `limit` tasks concurrently, queues the rest in FIFO order,
starts a queued task as soon as a slot frees — also when the finishing task
rejected — and completes each submitted future with the wrapped task's value
or error unchanged. `started`, `submitted` and `results` are histories used
to state those properties. -/
structure LimiterState where
  limit : Nat
  active : Nat
  queue : List Nat
  started : List Nat
  submitted : List Nat
  results : List (Nat × Except JsError Unit)
deriving DecidableEq, Repr

/-- An observable event of the limiter: a task submission, or the completion
of an in-flight task with its outcome. -/
inductive LimiterEvent where
  | submit (id : Nat)
  | finish (id : Nat) (r : Except JsError Unit)
deriving DecidableEq, Repr

def limiterStep (s : LimiterState) : LimiterEvent → LimiterState
  | LimiterEvent.submit id =>
    if s.active < s.limit then
      { s with active := s.active + 1,
               started := s.started ++ [id],
               submitted := s.submitted ++ [id] }
    else
      { s with queue := s.queue ++ [id],
               submitted := s.submitted ++ [id] }
  | LimiterEvent.finish id r =>
    let s1 := { s with active := s.active - 1, results := s.results ++ [(id, r)] }
    match s1.queue with
    | [] => s1
    | q :: qs =>
        { s1 with queue := qs, active := s1.active + 1,
                  started := s1.started ++ [q] }

def limiterRun (s : LimiterState) : List LimiterEvent → LimiterState
  | [] => s
  | e :: es => limiterRun (limiterStep s e) es

/-- Validity of an event sequence: only in-flight tasks finish. -/
def validEvents (s : LimiterState) : List LimiterEvent → Bool
  | [] => true
  | e :: es =>
    (match e with
     | LimiterEvent.finish _ _ => decide (0 < s.active)
     | LimiterEvent.submit _ => true) && validEvents (limiterStep s e) es

def limiterInit (limit : Nat) : LimiterState :=
  { limit := limit, active := 0, queue := [], started := [], submitted := [],
    results := [] }

/-- The limiter's inductive invariant: never more than `limit` tasks in
flight, a nonempty wait queue only when all slots are taken, and the queue
preserves submission order. -/
def LimiterInv (s : LimiterState) : Prop :=
  s.active ≤ s.limit ∧ (s.queue ≠ [] → s.active = s.limit) ∧
    s.queue.Sublist s.submitted

theorem processEachMessageGo_no_callEachBatch (cfg : RunnerConfig)
    (env : MessageEnv) (t : String) (p : Nat) :
    ∀ (msgs : List Message) (i : Nat) (t' : String) (p' : Nat),
      GroupCall.callEachBatch t' p' ∉ (processEachMessageGo cfg env t p i msgs).1 := by
  intro msgs
  induction msgs with
  | nil => intro i t' p'; simp [processEachMessageGo]
  | cons m rest ih =>
    intro i t' p'
    by_cases hb : (!env.running i || env.hasSeek i) = true
    · simp [processEachMessageGo, hb]
    · cases hr : env.handlerResult t p m with
      | error e =>
        cases hk : e.isKafkaJS <;>
          simp [processEachMessageGo, hb, hr, messageErrorCalls, hk]
      | ok u =>
        simp [processEachMessageGo, hb, hr, messageSuccessCalls]
        exact ih (i + 1) t' p'

theorem heartbeatFollowsResolve_go (cfg : RunnerConfig) (env : MessageEnv)
    (t : String) (p : Nat) :
    ∀ (msgs : List Message) (i : Nat),
      heartbeatFollowsResolve cfg.heartbeatInterval
        (processEachMessageGo cfg env t p i msgs).1 = true := by
  intro msgs
  induction msgs with
  | nil => intro i; simp [processEachMessageGo, heartbeatFollowsResolve]
  | cons m rest ih =>
    intro i
    by_cases hb : (!env.running i || env.hasSeek i) = true
    · simp [processEachMessageGo, hb, heartbeatFollowsResolve]
    · cases hr : env.handlerResult t p m with
      | error e =>
        cases hk : e.isKafkaJS <;>
          simp [processEachMessageGo, hb, hr, messageErrorCalls, hk,
            heartbeatFollowsResolve]
      | ok u =>
        simp [processEachMessageGo, hb, hr, messageSuccessCalls,
          heartbeatFollowsResolve]
        exact ih (i + 1)

theorem heartbeatsAllAt_go (cfg : RunnerConfig) (env : MessageEnv)
    (t : String) (p : Nat) :
    ∀ (msgs : List Message) (i : Nat),
      heartbeatsAllAt cfg.heartbeatInterval
        (processEachMessageGo cfg env t p i msgs).1 = true := by
  intro msgs
  induction msgs with
  | nil => intro i; simp [processEachMessageGo, heartbeatsAllAt]
  | cons m rest ih =>
    intro i
    by_cases hb : (!env.running i || env.hasSeek i) = true
    · simp [processEachMessageGo, hb, heartbeatsAllAt]
    · cases hr : env.handlerResult t p m with
      | error e =>
        cases hk : e.isKafkaJS <;>
          simp [processEachMessageGo, hb, hr, messageErrorCalls, hk,
            heartbeatsAllAt]
      | ok u =>
        have h2 := ih (i + 1)
        simp only [heartbeatsAllAt] at h2 ⊢
        simp [processEachMessageGo, hb, hr, messageSuccessCalls, h2]

/-- C8: while consuming, heartbeats are issued at the required cadence:
`processEachMessage` issues a heartbeat carrying `heartbeatInterval`
immediately after resolving every successfully handled message (and every
heartbeat it issues carries that interval), and `fetch` ends every cycle
with a trailing heartbeat, so a non-idle handler keeps heartbeat calls at
least as frequent as the interval. -/
theorem claim_C8 (cfg : RunnerConfig) (env : MessageEnv) (b : Batch) :
    heartbeatFollowsResolve cfg.heartbeatInterval
      (processEachMessage cfg env b).1 = true ∧
    heartbeatsAllAt cfg.heartbeatInterval (processEachMessage cfg env b).1 = true ∧
    (∀ processing : List GroupCall,
      (fetchCycleTrace cfg processing).getLast? =
        some (GroupCall.heartbeat cfg.heartbeatInterval)) := by
  refine ⟨heartbeatFollowsResolve_go cfg env b.topic b.partition b.messages 0,
    heartbeatsAllAt_go cfg env b.topic b.partition b.messages 0, ?_⟩
  intro processing
  have : fetchCycleTrace cfg processing =
      (GroupCall.emitFetch :: (processing ++ autoCommitOffsetsCalls cfg)) ++
        [GroupCall.heartbeat cfg.heartbeatInterval] := by
    simp [fetchCycleTrace]
  rw [this, List.getLast?_concat]

/-- C2: the catch block of `scheduleFetch` classifies a fetch error in
source order: not running → clean exit; rebalance-typed errors → re-join and
re-enter; `UNKNOWN_MEMBER_ID` → clear the member id, re-join and re-enter;
`KafkaJSOffsetOutOfRange` by name → swallow and re-enter;
`KafkaJSNotImplemented` by name → bail (fatal); anything else → rethrow to
the retrier. -/
theorem claim_C2 (running : Bool) (e : JsError) :
    (running = false → classifyFetchErr running e = FetchErrAction.cleanExit) ∧
    (running = true → isRebalancing e = true →
      classifyFetchErr running e = FetchErrAction.rejoinRefetch) ∧
    (running = true → isRebalancing e = false → e.type = "UNKNOWN_MEMBER_ID" →
      classifyFetchErr running e = FetchErrAction.clearMemberRejoinRefetch) ∧
    (running = true → isRebalancing e = false → e.type ≠ "UNKNOWN_MEMBER_ID" →
      e.name = "KafkaJSOffsetOutOfRange" →
      classifyFetchErr running e = FetchErrAction.refetchOnly) ∧
    (running = true → isRebalancing e = false → e.type ≠ "UNKNOWN_MEMBER_ID" →
      e.name ≠ "KafkaJSOffsetOutOfRange" → e.name = "KafkaJSNotImplemented" →
      classifyFetchErr running e = FetchErrAction.bailFatal) ∧
    (running = true → isRebalancing e = false → e.type ≠ "UNKNOWN_MEMBER_ID" →
      e.name ≠ "KafkaJSOffsetOutOfRange" → e.name ≠ "KafkaJSNotImplemented" →
      classifyFetchErr running e = FetchErrAction.rethrowErr) ∧
    (∀ (fr : Nat → Except JsError Unit) (fuel attempt : Nat) (st : SFState),
      st.running = true → isRebalancing e = false → e.type = "UNKNOWN_MEMBER_ID" →
      fr attempt = Except.error e →
      scheduleFetchGo fr fuel attempt st =
        ({ st with consuming := false, memberId := none, running := true },
         SFResult.reentered)) := by
  refine ⟨?_, ?_, ?_, ?_, ?_, ?_, ?_⟩
  · intro h; simp [classifyFetchErr, h]
  · intro h1 h2; simp [classifyFetchErr, h1, h2]
  · intro h1 h2 h3; simp [classifyFetchErr, h1, h2, h3]
  · intro h1 h2 h3 h4; simp [classifyFetchErr, h1, h2, h3, h4]
  · intro h1 h2 h3 h4 h5; simp [classifyFetchErr, h1, h2, h3, h4, h5]
  · intro h1 h2 h3 h4 h5; simp [classifyFetchErr, h1, h2, h3, h4, h5]
  · intro fr fuel attempt st h1 h2 h3 h4
    have hc : classifyFetchErr st.running e = FetchErrAction.clearMemberRejoinRefetch := by
      simp [classifyFetchErr, h1, h2, h3]
    cases fuel <;> simp [scheduleFetchGo, h4, hc]

/-- Witness for C2 at a concrete unknown-member error. -/
theorem claim_C2_witness :
    classifyFetchErr true ⟨"UNKNOWN_MEMBER_ID", "KafkaJSProtocolError", true⟩ =
      FetchErrAction.clearMemberRejoinRefetch :=
  (claim_C2 true ⟨"UNKNOWN_MEMBER_ID", "KafkaJSProtocolError", true⟩).2.2.1
    rfl (by decide) rfl

/-- A concrete configuration with an `eachMessage` handler. -/
def cfgMsgW : RunnerConfig :=
  { heartbeatInterval := 3, partitionsConsumedConcurrently := 1,
    hasEachMessage := true, hasEachBatch := false }

/-- A concrete configuration with an `eachBatch` handler. -/
def cfgBatchW : RunnerConfig :=
  { heartbeatInterval := 3, partitionsConsumedConcurrently := 1,
    hasEachMessage := false, hasEachBatch := true }

/-- A concrete configuration with both handlers supplied. -/
def cfgBothW : RunnerConfig :=
  { heartbeatInterval := 3, partitionsConsumedConcurrently := 1,
    hasEachMessage := true, hasEachBatch := true }

/-- A concrete configuration with no handler supplied. -/
def cfgNoneW : RunnerConfig :=
  { heartbeatInterval := 3, partitionsConsumedConcurrently := 1,
    hasEachMessage := false, hasEachBatch := false }

/-- A concrete configuration with `autoCommit` disabled. -/
def cfgNoAutoW : RunnerConfig :=
  { heartbeatInterval := 3, partitionsConsumedConcurrently := 1,
    hasEachMessage := true, hasEachBatch := false, autoCommit := false }

/-- A concrete message environment whose handler always succeeds. -/
def envOkW : MessageEnv :=
  { running := fun _ => true, hasSeek := fun _ => false,
    handlerResult := fun _ _ _ => Except.ok () }

/-- A concrete message environment with a pending seek. -/
def envSeekW : MessageEnv :=
  { running := fun _ => true, hasSeek := fun _ => true,
    handlerResult := fun _ _ _ => Except.ok () }

/-- A concrete batch environment for a stale batch whose handler returns
normally and issues no surface calls. -/
def bEnvStaleW : BatchEnv :=
  { hasSeek := true, handlerCalls := [], handlerResult := Except.ok () }

/-- C7 (amended): `processEachMessage` breaks before the handler on a batch
whose partition has a pending seek, so a stale batch resolves and commits
nothing there; `processEachBatch` however does not consult the seek state:
it invokes the handler and, with `eachBatchAutoResolve` on, auto-resolves
the batch's last offset even when the batch is stale — not auto-resolving a
stale batch is delegated to the handler via `isStale`. -/
theorem claim_C7 (cfg : RunnerConfig) :
    (∀ (env : MessageEnv) (b : Batch), env.hasSeek 0 = true →
      processEachMessage cfg env b = ([], none)) ∧
    (∀ (env : BatchEnv) (b : Batch), env.hasSeek = true →
      env.handlerResult = Except.ok () → cfg.eachBatchAutoResolve = true →
      GroupCall.resolveOffset b.topic b.partition b.lastOffset ∈
        (processEachBatch cfg env b).1) := by
  constructor
  · intro env b h
    cases hm : b.messages with
    | nil => simp [processEachMessage, hm, processEachMessageGo]
    | cons m rest => simp [processEachMessage, hm, processEachMessageGo, h]
  · intro env b hseek hres hauto
    simp [processEachBatch, hres, hauto]

/-- C7 counterexample: a stale batch (pending seek) processed by
`processEachBatch` with a normally-returning handler does advance the
resolved offset: the batch's last offset 10 is auto-resolved. -/
theorem claim_C7_counterexample :
    bEnvStaleW.hasSeek = true ∧
    GroupCall.resolveOffset "t" 0 10 ∈
      (processEachBatch cfgBatchW bEnvStaleW ⟨"t", 0, [⟨9⟩, ⟨10⟩]⟩).1 := by
  constructor
  · rfl
  · simp [processEachBatch, bEnvStaleW, cfgBatchW, surfaceCallsToGroup,
      Batch.lastOffset]

/-- Witness for C7 at concrete stale inputs. -/
theorem claim_C7_witness :
    processEachMessage cfgMsgW envSeekW ⟨"t", 0, [⟨10⟩]⟩ = ([], none) ∧
    GroupCall.resolveOffset "t" 0 10 ∈
      (processEachBatch cfgBatchW bEnvStaleW ⟨"t", 0, [⟨9⟩, ⟨10⟩]⟩).1 :=
  ⟨(claim_C7 cfgMsgW).1 envSeekW ⟨"t", 0, [⟨10⟩]⟩ rfl,
   (claim_C7 cfgBatchW).2 bEnvStaleW ⟨"t", 0, [⟨9⟩, ⟨10⟩]⟩ rfl rfl rfl⟩

/-- C10: handler dispatch of the per-batch task: for a non-empty batch
processed while running, a configured `eachMessage` handler is always
chosen — `eachBatch` is never invoked even when also configured — and when
neither handler is configured the batch is skipped silently while
START_BATCH_PROCESS and END_BATCH_PROCESS are still emitted. -/
theorem claim_C10 (cfg : RunnerConfig) (mEnv : MessageEnv) (bEnv : BatchEnv)
    (b : Batch) (hne : b.isEmpty = false) :
    (cfg.hasEachMessage = true →
      fetchBatchTask cfg true mEnv bEnv b = onBatch cfg mEnv bEnv b ∧
      dispatchHandler cfg mEnv bEnv b = processEachMessage cfg mEnv b ∧
      (∀ (t : String) (p : Nat),
        GroupCall.callEachBatch t p ∉ (fetchBatchTask cfg true mEnv bEnv b).1)) ∧
    (cfg.hasEachMessage = false → cfg.hasEachBatch = false →
      fetchBatchTask cfg true mEnv bEnv b =
        ([GroupCall.emitStartBatch, GroupCall.emitEndBatch], none)) := by
  have hft : fetchBatchTask cfg true mEnv bEnv b = onBatch cfg mEnv bEnv b := by
    simp [fetchBatchTask, hne]
  constructor
  · intro hm
    refine ⟨hft, by simp [dispatchHandler, hm], ?_⟩
    intro t p
    rw [hft]
    have hno : GroupCall.callEachBatch t p ∉ (processEachMessage cfg mEnv b).1 :=
      processEachMessageGo_no_callEachBatch cfg mEnv b.topic b.partition
        b.messages 0 t p
    cases h2 : (processEachMessage cfg mEnv b).2 <;>
      simp [onBatch, dispatchHandler, hm, h2, hno]
  · intro h1 h2
    rw [hft]
    simp [onBatch, dispatchHandler, h1, h2]

/-- Witness for C10 at concrete inputs: both-handlers and no-handler runners. -/
theorem claim_C10_witness :
    GroupCall.callEachBatch "t" 0 ∉
      (fetchBatchTask cfgBothW true envOkW bEnvStaleW ⟨"t", 0, [⟨1⟩]⟩).1 ∧
    fetchBatchTask cfgNoneW true envOkW bEnvStaleW ⟨"t", 0, [⟨1⟩]⟩ =
      ([GroupCall.emitStartBatch, GroupCall.emitEndBatch], none) :=
  ⟨((claim_C10 cfgBothW envOkW bEnvStaleW ⟨"t", 0, [⟨1⟩]⟩ rfl).1 rfl).2.2 "t" 0,
   (claim_C10 cfgNoneW envOkW bEnvStaleW ⟨"t", 0, [⟨1⟩]⟩ rfl).2 rfl rfl⟩

/-- C3 counterexample: with `autoCommit = false` the Runner still issues a
commit call: `processEachMessage` calls `commitOffsetsIfNecessary` after a
successfully handled message (runner.js:161 is not gated by `autoCommit`). -/
theorem claim_C3_counterexample :
    cfgNoAutoW.autoCommit = false ∧
    GroupCall.commitOffsetsIfNecessary ∈
      (processEachMessage cfgNoAutoW envOkW ⟨"t", 0, [⟨10⟩]⟩).1 := by
  constructor
  · rfl
  · simp [processEachMessage, processEachMessageGo, envOkW, messageSuccessCalls]

/-- C3 (amended): `autoCommit = false` suppresses exactly the commits routed
through `autoCommitOffsets` and `autoCommitOffsetsIfNecessary` — the
post-cycle commit of the fetch loop and the commit of `processEachBatch`'s
error path — while `processEachMessage` still issues
`commitOffsetsIfNecessary` after every successful message and
`commitOffsets` on handler error, regardless of the flag. -/
theorem claim_C3 (cfg : RunnerConfig) (hac : cfg.autoCommit = false) :
    autoCommitOffsetsCalls cfg = [] ∧
    autoCommitOffsetsIfNecessaryCalls cfg = [] ∧
    (∀ processing : List GroupCall,
      fetchCycleTrace cfg processing =
        GroupCall.emitFetch :: processing ++
          [GroupCall.heartbeat cfg.heartbeatInterval]) ∧
    (∀ (env : BatchEnv) (b : Batch) (e : JsError),
      env.handlerResult = Except.error e → env.handlerCalls = [] →
      GroupCall.commitOffsets ∉ (processEachBatch cfg env b).1 ∧
      GroupCall.commitOffsetsIfNecessary ∉ (processEachBatch cfg env b).1) ∧
    (∀ (env : MessageEnv) (b : Batch) (m : Message) (rest : List Message),
      b.messages = m :: rest → env.running 0 = true → env.hasSeek 0 = false →
      env.handlerResult b.topic b.partition m = Except.ok () →
      GroupCall.commitOffsetsIfNecessary ∈ (processEachMessage cfg env b).1) ∧
    (∀ (env : MessageEnv) (b : Batch) (m : Message) (rest : List Message)
        (e : JsError),
      b.messages = m :: rest → env.running 0 = true → env.hasSeek 0 = false →
      env.handlerResult b.topic b.partition m = Except.error e →
      GroupCall.commitOffsets ∈ (processEachMessage cfg env b).1) := by
  refine ⟨by simp [autoCommitOffsetsCalls, hac],
    by simp [autoCommitOffsetsIfNecessaryCalls, hac], ?_, ?_, ?_, ?_⟩
  · intro processing
    simp [fetchCycleTrace, autoCommitOffsetsCalls, hac]
  · intro env b e h1 h2
    cases hk : e.isKafkaJS <;>
      simp [processEachBatch, h1, h2, hk, surfaceCallsToGroup,
        autoCommitOffsetsCalls, hac]
  · intro env b m rest h1 h2 h3 h4
    simp [processEachMessage, h1, processEachMessageGo, h2, h3, h4,
      messageSuccessCalls]
  · intro env b m rest e h1 h2 h3 h4
    cases hk : e.isKafkaJS <;>
      simp [processEachMessage, h1, processEachMessageGo, h2, h3, h4, hk,
        messageErrorCalls]

/-- Witness for C3 at the concrete no-auto-commit runner. -/
theorem claim_C3_witness :
    autoCommitOffsetsCalls cfgNoAutoW = [] ∧
    GroupCall.commitOffsetsIfNecessary ∈
      (processEachMessage cfgNoAutoW envOkW ⟨"t", 0, [⟨10⟩]⟩).1 :=
  ⟨(claim_C3 cfgNoAutoW rfl).1,
   (claim_C3 cfgNoAutoW rfl).2.2.2.2.1 envOkW ⟨"t", 0, [⟨10⟩]⟩ ⟨10⟩ [] rfl rfl
     rfl rfl⟩

theorem scheduleFetchGo_running_true (fr : Nat → Except JsError Unit) :
    ∀ (fuel attempt : Nat) (st : SFState), st.running = true →
      ((scheduleFetchGo fr fuel attempt st).1).running = true := by
  intro fuel
  induction fuel with
  | zero =>
    intro attempt st hr
    unfold scheduleFetchGo
    split
    · exact hr
    · split <;> first | exact hr | rfl
  | succ fuel' ih =>
    intro attempt st hr
    unfold scheduleFetchGo
    split
    · exact hr
    · split <;>
        first
        | exact hr
        | rfl
        | exact ih (attempt + 1) { st with consuming := false } hr

/-- A concrete fatal (bailed) error: `KafkaJSNotImplemented` by name. -/
def errNotImp : JsError := ⟨"", "KafkaJSNotImplemented", true⟩

/-- C5 counterexample: the scheduler bails on a `KafkaJSNotImplemented`
fetch error and the crash handler fires while `running` is still true —
the Runner is not left in `running = false`. -/
theorem claim_C5_counterexample :
    (scheduleFetchOnce (fun _ => Except.error errNotImp) 5
        ⟨true, false, some "member-1"⟩).2 = SFResult.crashed errNotImp ∧
    ((scheduleFetchOnce (fun _ => Except.error errNotImp) 5
        ⟨true, false, some "member-1"⟩).1).running = true := by
  constructor <;> rfl

/-- C5 (amended): a crash from `start` (join failure) leaves
`running = false`, but a crash from `scheduleFetch` (bail on
`KafkaJSNotImplemented` or retry exhaustion) leaves `running` unchanged from
its value when the crash happened — the scheduler's crash path never clears
the flag, so `running` stays true unless `stop` had already cleared it. -/
theorem claim_C5 :
    (∀ e : JsError, start false (Except.error e) = (false, some e)) ∧
    (∀ (fr : Nat → Except JsError Unit) (retries : Nat) (st st' : SFState)
        (e : JsError),
      scheduleFetchOnce fr retries st = (st', SFResult.crashed e) →
      st'.running = st.running) := by
  constructor
  · intro e; rfl
  · intro fr retries st st' e h
    by_cases hr : st.running = true
    · rw [scheduleFetchOnce, if_pos hr] at h
      have hres := scheduleFetchGo_running_true fr retries 0
        { st with consuming := true } hr
      rw [h] at hres
      rw [hres, hr]
    · rw [scheduleFetchOnce, if_neg hr] at h
      simp at h

/-- Witness for C5: a crash from start, and the crashing scheduler run of
the counterexample input. -/
theorem claim_C5_witness :
    start false (Except.error errNotImp) = (false, some errNotImp) ∧
    ((⟨true, false, some "member-1"⟩ : SFState)).running = true :=
  ⟨claim_C5.1 errNotImp,
   claim_C5.2 (fun _ => Except.error errNotImp) 5
     ⟨true, false, some "member-1"⟩ ⟨true, false, some "member-1"⟩ errNotImp
     (by rfl)⟩

/-- C4 counterexample: the trace in which `stop` runs while the rebalance
recovery of `scheduleFetch` is awaiting its re-join (a suspension point) is
a valid interleaving of the two operations' writes; starting from
`running = true` it contains a false-to-true transition performed inside
`join` — outside `start`. -/
theorem claim_C4_counterexample :
    Interleave stopRunningWrites recoveryRunningWrites
      [⟨RunnerSite.inStop, false⟩, ⟨RunnerSite.inJoin, true⟩] ∧
    (RunnerSite.inJoin, false, true) ∈
      runningTransitions true
        [⟨RunnerSite.inStop, false⟩, ⟨RunnerSite.inJoin, true⟩] ∧
    RunnerSite.inJoin ≠ RunnerSite.inStart := by
  refine ⟨?_, by decide, by decide⟩
  exact Interleave.consLeft _ (Interleave.consRight _ Interleave.nil)

/-- C4 (amended): along any trace of `running`-writes drawn from the
Runner's operations (`start`, `stop`, the scheduler's re-join recovery),
every false-to-true transition happens inside `start` or inside `join` —
and since `join` is also invoked by the rebalance recovery, a false-to-true
transition can happen outside `start` when `stop` interleaves with a
re-join — while every true-to-false transition happens inside `stop`. -/
theorem claim_C4 (init : Bool) (trace : List RunningWrite)
    (hsrc : ∀ w ∈ trace, w ∈ startRunningWrites ∨ w ∈ stopRunningWrites ∨
      w ∈ recoveryRunningWrites) :
    ∀ (s : RunnerSite) (a b : Bool),
      (s, a, b) ∈ runningTransitions init trace →
      (a = false → b = true → s = RunnerSite.inJoin ∨ s = RunnerSite.inStart) ∧
      (a = true → b = false → s = RunnerSite.inStop) := by
  induction trace generalizing init with
  | nil => intro s a b h; simp [runningTransitions] at h
  | cons w ws ih =>
    intro s a b h
    rw [runningTransitions] at h
    rcases List.mem_cons.mp h with h | h
    · have hw := hsrc w (List.mem_cons_self w ws)
      simp [startRunningWrites, stopRunningWrites, recoveryRunningWrites] at hw
      simp at h
      obtain ⟨rfl, rfl, rfl⟩ := h
      rcases hw with (rfl | rfl) | rfl | rfl <;> simp
    · exact ih w.value (fun w' hw' => hsrc w' (List.mem_cons_of_mem w hw')) s a b h

/-- Witness for C4 at the interleaved trace of the counterexample. -/
theorem claim_C4_witness :
    RunnerSite.inJoin = RunnerSite.inJoin ∨
      RunnerSite.inJoin = RunnerSite.inStart :=
  (claim_C4 true [⟨RunnerSite.inStop, false⟩, ⟨RunnerSite.inJoin, true⟩]
      (by decide) RunnerSite.inJoin false true (by decide)).1 rfl rfl

/-- C6: `stop` is total and swallows every error: when not running it
returns at once with no collaborator calls; when running it clears the
flag, in test mode skips the wait, otherwise polls `consuming` at 1-second
intervals exactly until the first observation of false, and only then
issues the leave; the outcome of the leave never influences the result. -/
theorem claim_C6 (env : StopEnv) (h : ∃ n, env.consumingAt n = false)
    (running : Bool) :
    (running = false → stop env h running = (running, [])) ∧
    (running = true → (stop env h running).1 = false) ∧
    (running = true → env.testMode = true →
      (stop env h running).2 = [GroupCall.leave]) ∧
    (running = true → env.testMode = false →
      (stop env h running).2 =
        List.replicate (waitForConsumer env.consumingAt h)
          (GroupCall.waitPoll 1000) ++ [GroupCall.leave] ∧
      env.consumingAt (waitForConsumer env.consumingAt h) = false ∧
      (∀ m < waitForConsumer env.consumingAt h, env.consumingAt m = true)) ∧
    (∀ (r' : Except JsError Unit)
        (h' : ∃ n, (StopEnv.mk env.consumingAt env.testMode r').consumingAt n = false),
      stop ⟨env.consumingAt, env.testMode, r'⟩ h' running = stop env h running) := by
  refine ⟨?_, ?_, ?_, ?_, ?_⟩
  · intro hr; simp [stop, hr]
  · intro hr; simp [stop, hr]
  · intro hr ht; simp [stop, hr, ht]
  · intro hr ht
    refine ⟨by simp [stop, hr, ht], Nat.find_spec h, ?_⟩
    intro m hm
    have hmin := Nat.find_min h hm
    cases hcm : env.consumingAt m with
    | false => exact absurd hcm hmin
    | true => rfl
  · intro r' h'
    rfl

/-- A concrete stop environment: consuming for two polls, then drained. -/
def stopEnvW : StopEnv :=
  { consumingAt := fun n => decide (n < 2), testMode := false,
    leaveResult := Except.ok () }

/-- Witness for C6 at the concrete stop environment. -/
theorem claim_C6_witness :
    (stop stopEnvW ⟨2, by decide⟩ true).1 = false :=
  (claim_C6 stopEnvW ⟨2, by decide⟩ true).2.1 rfl

/-- The full trace of a run of successfully handled messages. -/
def successTrace (cfg : RunnerConfig) (t : String) (p : Nat) :
    List Message → List GroupCall
  | [] => []
  | m :: ms => messageSuccessCalls cfg t p m ++ successTrace cfg t p ms

theorem processEachMessageGo_ok_append (cfg : RunnerConfig) (env : MessageEnv)
    (t : String) (p : Nat) (rest : List Message)
    (hrun : ∀ j, env.running j = true) (hseek : ∀ j, env.hasSeek j = false) :
    ∀ (pre : List Message) (i : Nat),
      (∀ m ∈ pre, env.handlerResult t p m = Except.ok ()) →
      processEachMessageGo cfg env t p i (pre ++ rest) =
        (successTrace cfg t p pre ++
           (processEachMessageGo cfg env t p (i + pre.length) rest).1,
         (processEachMessageGo cfg env t p (i + pre.length) rest).2) := by
  intro pre
  induction pre with
  | nil =>
    intro i hok
    simp [successTrace]
  | cons m ms ih =>
    intro i hok
    have hm := hok m (List.mem_cons_self m ms)
    have hms : ∀ m' ∈ ms, env.handlerResult t p m' = Except.ok () :=
      fun m' hm' => hok m' (List.mem_cons_of_mem m hm')
    have hcond : (!env.running i || env.hasSeek i) = false := by
      simp [hrun i, hseek i]
    have hlen : i + 1 + ms.length = i + (m :: ms).length := by
      simp [List.length_cons]
      omega
    simp only [List.cons_append, processEachMessageGo, hcond, hm,
      Bool.false_eq_true, if_false, successTrace, List.append_eq]
    rw [ih (i + 1) hms, hlen]
    simp [List.append_assoc]

theorem processEachMessageGo_error_head (cfg : RunnerConfig) (env : MessageEnv)
    (t : String) (p : Nat) (m : Message) (post : List Message) (i : Nat)
    (e : JsError)
    (hrun : env.running i = true) (hseek : env.hasSeek i = false)
    (herr : env.handlerResult t p m = Except.error e) :
    processEachMessageGo cfg env t p i (m :: post) =
      (messageErrorCalls t p m e, some e) := by
  simp [processEachMessageGo, hrun, hseek, herr]

theorem successTrace_resolve_offsets (cfg : RunnerConfig) (t : String) (p : Nat) :
    ∀ (msgs : List Message) (t' : String) (p' o : Nat),
      GroupCall.resolveOffset t' p' o ∈ successTrace cfg t p msgs →
      ∃ m ∈ msgs, o = m.offset := by
  intro msgs
  induction msgs with
  | nil => intro t' p' o h; simp [successTrace] at h
  | cons m ms ih =>
    intro t' p' o h
    simp only [successTrace, messageSuccessCalls, List.cons_append,
      List.mem_cons, List.mem_append] at h
    rcases h with h | h | h | h | h
    · exact absurd h (by simp)
    · obtain ⟨h1, h2, h3⟩ := GroupCall.resolveOffset.inj h
      exact ⟨m, List.mem_cons_self m ms, h3⟩
    · exact absurd h (by simp)
    · exact absurd h (by simp)
    · obtain ⟨m', hm', ho⟩ := ih t' p' o (by simpa [successTrace] using h)
      exact ⟨m', List.mem_cons_of_mem m hm', ho⟩

theorem messageErrorCalls_no_resolve (t : String) (p : Nat) (m : Message)
    (e : JsError) (t' : String) (p' o : Nat) :
    GroupCall.resolveOffset t' p' o ∉ messageErrorCalls t p m e := by
  cases hk : e.isKafkaJS <;> simp [messageErrorCalls, hk]

theorem messageErrorCalls_concat (t : String) (p : Nat) (m : Message)
    (e : JsError) :
    messageErrorCalls t p m e =
      (GroupCall.callEachMessage t p m.offset ::
        (if e.isKafkaJS then [] else [GroupCall.logError])) ++
        [GroupCall.commitOffsets] := by
  cases hk : e.isKafkaJS <;> simp [messageErrorCalls, hk]

theorem runCalls_append (nec : Nat → Bool) (s : OffsetState)
    (l1 l2 : List GroupCall) :
    runCalls nec s (l1 ++ l2) = runCalls nec (runCalls nec s l1) l2 := by
  simp [runCalls, List.foldl_append]

theorem runCalls_resolved_le (nec : Nat → Bool) (B : Nat) :
    ∀ (l : List GroupCall) (s : OffsetState),
      (∀ (t : String) (p o : Nat), GroupCall.resolveOffset t p o ∈ l → o ≤ B) →
      s.resolved ≤ B → (runCalls nec s l).resolved ≤ B := by
  intro l
  induction l with
  | nil => intro s h hs; simpa [runCalls]
  | cons c cs ih =>
    intro s h hs
    have hstep : runCalls nec s (c :: cs) = runCalls nec (applyCall nec s c) cs := by
      simp [runCalls]
    rw [hstep]
    have hs2 : (applyCall nec s c).resolved ≤ B := by
      cases c <;> first
        | exact hs
        | exact h _ _ _ (List.mem_cons_self _ _)
    exact ih (applyCall nec s c)
      (fun t p o hm => h t p o (List.mem_cons_of_mem c hm)) hs2

theorem runCalls_resolved_ge (nec : Nat → Bool) (r0 : Nat) :
    ∀ (l : List GroupCall) (s : OffsetState),
      (∀ (t : String) (p o : Nat), GroupCall.resolveOffset t p o ∈ l → r0 ≤ o) →
      r0 ≤ s.resolved → r0 ≤ (runCalls nec s l).resolved := by
  intro l
  induction l with
  | nil => intro s h hs; simpa [runCalls]
  | cons c cs ih =>
    intro s h hs
    have hstep : runCalls nec s (c :: cs) = runCalls nec (applyCall nec s c) cs := by
      simp [runCalls]
    rw [hstep]
    have hs2 : r0 ≤ (applyCall nec s c).resolved := by
      cases c <;> first
        | exact hs
        | exact h _ _ _ (List.mem_cons_self _ _)
    exact ih (applyCall nec s c)
      (fun t p o hm => h t p o (List.mem_cons_of_mem c hm)) hs2

theorem runCalls_commit_last (nec : Nat → Bool) (s : OffsetState)
    (l : List GroupCall) :
    (runCalls nec s (l ++ [GroupCall.commitOffsets])).committed =
      (runCalls nec s l).resolved := by
  rw [runCalls_append]
  simp [runCalls, applyCall]

/-- C1: when the `eachMessage` handler throws on the message at offset `k`
after the earlier messages of the batch succeeded, `processEachMessage`
issues `consumerGroup.commitOffsets()` as its final collaborator call before
rethrowing the error, every offset it resolved is strictly below `k`, and
the committed offset after the throw lies between the previously-resolved
offset and `k` — never past the failing message. -/
theorem claim_C1 (cfg : RunnerConfig) (env : MessageEnv) (b : Batch)
    (nec : Nat → Bool) (s0 : OffsetState)
    (pre post : List Message) (mf : Message) (e : JsError)
    (hmsgs : b.messages = pre ++ mf :: post)
    (hrun : ∀ j, env.running j = true)
    (hseek : ∀ j, env.hasSeek j = false)
    (hok : ∀ m ∈ pre, env.handlerResult b.topic b.partition m = Except.ok ())
    (herr : env.handlerResult b.topic b.partition mf = Except.error e)
    (hlt : ∀ m ∈ pre, m.offset < mf.offset)
    (hge : ∀ m ∈ pre, s0.resolved ≤ m.offset)
    (hres : s0.resolved ≤ mf.offset) :
    (processEachMessage cfg env b).2 = some e ∧
    (processEachMessage cfg env b).1.getLast? = some GroupCall.commitOffsets ∧
    (∀ (t : String) (p o : Nat),
      GroupCall.resolveOffset t p o ∈ (processEachMessage cfg env b).1 →
      o < mf.offset) ∧
    s0.resolved ≤ (runCalls nec s0 (processEachMessage cfg env b).1).committed ∧
    (runCalls nec s0 (processEachMessage cfg env b).1).committed ≤ mf.offset := by
  have hpem : processEachMessage cfg env b =
      (successTrace cfg b.topic b.partition pre ++
         messageErrorCalls b.topic b.partition mf e, some e) := by
    rw [processEachMessage, hmsgs,
      processEachMessageGo_ok_append cfg env b.topic b.partition (mf :: post)
        hrun hseek pre 0 hok,
      processEachMessageGo_error_head cfg env b.topic b.partition mf post
        (0 + pre.length) e (hrun _) (hseek _) herr]
  have hresolve : ∀ (t : String) (p o : Nat),
      GroupCall.resolveOffset t p o ∈ (processEachMessage cfg env b).1 →
      o < mf.offset := by
    intro t p o hmem
    rw [hpem] at hmem
    rcases List.mem_append.mp hmem with hmem | hmem
    · obtain ⟨m, hm, rfl⟩ :=
        successTrace_resolve_offsets cfg b.topic b.partition pre t p o hmem
      exact hlt m hm
    · exact absurd hmem (messageErrorCalls_no_resolve _ _ _ _ _ _ _)
  have hresolveA : ∀ (t : String) (p o : Nat),
      GroupCall.resolveOffset t p o ∈
        successTrace cfg b.topic b.partition pre ++
          (GroupCall.callEachMessage b.topic b.partition mf.offset ::
            (if e.isKafkaJS then [] else [GroupCall.logError])) →
      s0.resolved ≤ o ∧ o ≤ mf.offset := by
    intro t p o hmem
    rcases List.mem_append.mp hmem with hmem | hmem
    · obtain ⟨m, hm, rfl⟩ :=
        successTrace_resolve_offsets cfg b.topic b.partition pre t p o hmem
      exact ⟨hge m hm, Nat.le_of_lt (hlt m hm)⟩
    · exact absurd hmem (by cases e.isKafkaJS <;> simp)
  have hcommitted :
      (runCalls nec s0 (processEachMessage cfg env b).1).committed =
        (runCalls nec s0
          (successTrace cfg b.topic b.partition pre ++
            (GroupCall.callEachMessage b.topic b.partition mf.offset ::
              (if e.isKafkaJS then [] else [GroupCall.logError])))).resolved := by
    rw [hpem]
    show (runCalls nec s0 _).committed = _
    rw [messageErrorCalls_concat, ← List.append_assoc, runCalls_commit_last]
  refine ⟨by rw [hpem], ?_, hresolve, ?_, ?_⟩
  · rw [hpem]
    show (successTrace cfg b.topic b.partition pre ++
        messageErrorCalls b.topic b.partition mf e).getLast? = _
    rw [messageErrorCalls_concat, ← List.append_assoc, List.getLast?_concat]
  · rw [hcommitted]
    exact runCalls_resolved_ge nec s0.resolved _ s0
      (fun t p o hm => (hresolveA t p o hm).1) (Nat.le_refl _)
  · rw [hcommitted]
    exact runCalls_resolved_le nec mf.offset _ s0
      (fun t p o hm => (hresolveA t p o hm).2) hres

/-- A concrete Kafka-domain error thrown by the witness handler. -/
def errHandlerW : JsError := ⟨"", "HandlerFailure", false⟩

/-- A concrete message environment whose handler fails exactly at offset 12. -/
def envFailAt12W : MessageEnv :=
  { running := fun _ => true, hasSeek := fun _ => false,
    handlerResult := fun _ _ m =>
      if m.offset == 12 then Except.error errHandlerW else Except.ok () }

/-- Witness for C1 at a concrete batch failing at offset 12. -/
theorem claim_C1_witness :
    (processEachMessage cfgMsgW envFailAt12W
      ⟨"t", 0, [⟨10⟩, ⟨11⟩, ⟨12⟩, ⟨13⟩]⟩).2 = some errHandlerW ∧
    (runCalls (fun _ => false) ⟨9, 5, 0⟩
      (processEachMessage cfgMsgW envFailAt12W
        ⟨"t", 0, [⟨10⟩, ⟨11⟩, ⟨12⟩, ⟨13⟩]⟩).1).committed ≤ 12 := by
  have h := claim_C1 cfgMsgW envFailAt12W ⟨"t", 0, [⟨10⟩, ⟨11⟩, ⟨12⟩, ⟨13⟩]⟩
    (fun _ => false) ⟨9, 5, 0⟩ [⟨10⟩, ⟨11⟩] [⟨13⟩] ⟨12⟩ errHandlerW
    rfl (fun j => rfl) (fun j => rfl) (by decide) rfl (by decide) (by decide)
    (by decide)
  exact ⟨h.1, h.2.2.2.2⟩

theorem limiterStep_inv (s : LimiterState) (e : LimiterEvent)
    (hv : ∀ id r, e = LimiterEvent.finish id r → 0 < s.active)
    (hinv : LimiterInv s) : LimiterInv (limiterStep s e) := by
  obtain ⟨h1, h2, h3⟩ := hinv
  cases e with
  | submit id =>
    by_cases h : s.active < s.limit
    · have hstep : limiterStep s (LimiterEvent.submit id) =
          { s with active := s.active + 1, started := s.started ++ [id],
                   submitted := s.submitted ++ [id] } := by
        simp [limiterStep, h]
      rw [hstep]
      refine ⟨?_, ?_, ?_⟩
      · show s.active + 1 ≤ s.limit
        omega
      · show s.queue ≠ [] → s.active + 1 = s.limit
        intro hq
        exact absurd (h2 hq) (Nat.ne_of_lt h)
      · show s.queue.Sublist (s.submitted ++ [id])
        exact h3.trans (List.sublist_append_left _ _)
    · have hstep : limiterStep s (LimiterEvent.submit id) =
          { s with queue := s.queue ++ [id],
                   submitted := s.submitted ++ [id] } := by
        simp [limiterStep, h]
      rw [hstep]
      refine ⟨?_, ?_, ?_⟩
      · show s.active ≤ s.limit
        exact h1
      · show s.queue ++ [id] ≠ [] → s.active = s.limit
        intro hq
        omega
      · show (s.queue ++ [id]).Sublist (s.submitted ++ [id])
        exact h3.append (List.Sublist.refl _)
  | finish id r =>
    have hv2 : 0 < s.active := hv id r rfl
    cases hq : s.queue with
    | nil =>
      have hstep : limiterStep s (LimiterEvent.finish id r) =
          { s with active := s.active - 1,
                   results := s.results ++ [(id, r)] } := by
        simp [limiterStep, hq]
      rw [hstep]
      refine ⟨?_, ?_, ?_⟩
      · show s.active - 1 ≤ s.limit
        omega
      · show s.queue ≠ [] → s.active - 1 = s.limit
        intro hqq
        exact absurd hq hqq
      · show s.queue.Sublist s.submitted
        exact h3
    | cons q qs =>
      have hstep : limiterStep s (LimiterEvent.finish id r) =
          { s with active := s.active - 1 + 1, queue := qs,
                   started := s.started ++ [q],
                   results := s.results ++ [(id, r)] } := by
        simp [limiterStep, hq]
      have heq : s.active = s.limit := h2 (by simp [hq])
      rw [hstep]
      refine ⟨?_, ?_, ?_⟩
      · show s.active - 1 + 1 ≤ s.limit
        omega
      · show qs ≠ [] → s.active - 1 + 1 = s.limit
        intro hqq
        omega
      · show qs.Sublist s.submitted
        have h4 : (q :: qs).Sublist s.submitted := hq ▸ h3
        exact (List.sublist_cons_self q qs).trans h4

theorem limiterRun_inv : ∀ (es : List LimiterEvent) (s : LimiterState),
    validEvents s es = true → LimiterInv s → LimiterInv (limiterRun s es) := by
  intro es
  induction es with
  | nil => intro s hv hinv; exact hinv
  | cons e es ih =>
    intro s hv hinv
    rw [validEvents.eq_def, Bool.and_eq_true] at hv
    refine ih (limiterStep s e) hv.2 (limiterStep_inv s e ?_ hinv)
    intro id r he
    subst he
    simpa using hv.1

theorem limiterRun_limit : ∀ (es : List LimiterEvent) (s : LimiterState),
    (limiterRun s es).limit = s.limit := by
  intro es
  induction es with
  | nil => intro s; rfl
  | cons e es ih =>
    intro s
    rw [show limiterRun s (e :: es) = limiterRun (limiterStep s e) es from rfl,
      ih (limiterStep s e)]
    cases e with
    | submit id => by_cases h : s.active < s.limit <;> simp [limiterStep, h]
    | finish id r => cases hq : s.queue <;> simp [limiterStep, hq]

/-- C9: the concurrency limiter keeps at most `limit` tasks in flight in
every valid run, overflow tasks wait in a queue that preserves submission
order (FIFO) and is drained from the head exactly when a slot frees, a task
that rejects releases its slot exactly as a successful one does while its
error is recorded unchanged, and `limit = 1` degenerates to strictly serial
execution. -/
theorem claim_C9 (limit : Nat) (es : List LimiterEvent)
    (hv : validEvents (limiterInit limit) es = true) :
    (limiterRun (limiterInit limit) es).active ≤ limit ∧
    (limiterRun (limiterInit limit) es).queue.Sublist
      (limiterRun (limiterInit limit) es).submitted ∧
    (limit = 1 → (limiterRun (limiterInit limit) es).active ≤ 1) ∧
    (∀ (s : LimiterState) (q : Nat) (qs : List Nat) (id : Nat)
        (r : Except JsError Unit),
      s.queue = q :: qs →
      (limiterStep s (LimiterEvent.finish id r)).started = s.started ++ [q] ∧
      (limiterStep s (LimiterEvent.finish id r)).queue = qs) ∧
    (∀ (s : LimiterState) (id : Nat) (e : JsError),
      (limiterStep s (LimiterEvent.finish id (Except.error e))).active =
        (limiterStep s (LimiterEvent.finish id (Except.ok ()))).active ∧
      (limiterStep s (LimiterEvent.finish id (Except.error e))).queue =
        (limiterStep s (LimiterEvent.finish id (Except.ok ()))).queue ∧
      (limiterStep s (LimiterEvent.finish id (Except.error e))).started =
        (limiterStep s (LimiterEvent.finish id (Except.ok ()))).started ∧
      (id, Except.error e) ∈
        (limiterStep s (LimiterEvent.finish id (Except.error e))).results) := by
  have hinv0 : LimiterInv (limiterInit limit) := by
    refine ⟨Nat.zero_le _, ?_, List.nil_sublist _⟩
    intro h
    exact absurd rfl h
  have hinv := limiterRun_inv es (limiterInit limit) hv hinv0
  have hlim := limiterRun_limit es (limiterInit limit)
  obtain ⟨h1, h2, h3⟩ := hinv
  rw [hlim] at h1
  refine ⟨h1, h3, fun hl => hl ▸ h1, ?_, ?_⟩
  · intro s q qs id r hq
    constructor <;> simp [limiterStep, hq]
  · intro s id e
    cases hq : s.queue with
    | nil => simp [limiterStep, hq]
    | cons q qs => simp [limiterStep, hq]

/-- A concrete valid limiter run with limit 2 and five tasks, one rejecting. -/
def limiterEventsW : List LimiterEvent :=
  [LimiterEvent.submit 1, LimiterEvent.submit 2, LimiterEvent.submit 3,
   LimiterEvent.finish 1 (Except.error errHandlerW), LimiterEvent.submit 4,
   LimiterEvent.finish 2 (Except.ok ()), LimiterEvent.finish 3 (Except.ok ()),
   LimiterEvent.finish 4 (Except.ok ())]

/-- Witness for C9 at the concrete run. -/
theorem claim_C9_witness :
    (limiterRun (limiterInit 2) limiterEventsW).active ≤ 2 ∧
    (limiterRun (limiterInit 2) limiterEventsW).queue.Sublist
      (limiterRun (limiterInit 2) limiterEventsW).submitted :=
  ⟨(claim_C9 2 limiterEventsW (by decide)).1,
   (claim_C9 2 limiterEventsW (by decide)).2.1⟩

end Runner
